import Mathlib

/-!
Verification development for `crates/next-api/src/app.rs`: the per-endpoint
build computation of the app-router build pipeline (AppProject module
contexts, AppEndpoint entry resolution, output computation for the NodeJs
and Edge runtimes, manifest emission, and `write_to_disk`).

The Rust source is shallowly embedded: pure functions of `app.rs` become
Lean functions over explicit data.  External collaborators (the turbopack
chunking contexts, the path helpers of `crate::paths`, the manifest
builders of `next_core`, the memoized-emission substrate) live outside the
embedded file; where a claim depends on them they are modelled from the
specification and marked `Modelled from the spec:` in their doc comments.
All remaining definitions are translated directly from `app.rs`.
-/

set_option maxRecDepth 4000

namespace NextApi

/-- `NextRuntime` from `next_core::util`: the two chunking/runtime targets. -/
inductive NextRuntime where
  | nodeJs
  | edge
deriving DecidableEq, Repr

/-- Modelled from the spec: the default `NextRuntime` (the value
`unwrap_or_default()` produces when a segment config leaves `runtime`
unset) is the long-lived NodeJs server runtime; an Edge build is produced
only when a segment config explicitly selects Edge.  The `Default`
implementation itself lives in `next_core::util`, outside the embedded
file. -/
def NextRuntime.defaultRuntime : NextRuntime := NextRuntime.nodeJs

/-- `NextSegmentConfig` (`next_core::app_segment_config`), restricted to the
fields the specification names: the preferred runtime and the preferred
regions.  An unset field is `none`. -/
structure NextSegmentConfig where
  runtime : Option NextRuntime
  preferredRegion : Option (List String)
deriving DecidableEq, Repr

/-- `NextSegmentConfig::default()`: every field unset. -/
def NextSegmentConfig.defaultConfig : NextSegmentConfig :=
  { runtime := none, preferredRegion := none }

/-- Modelled from the spec: `NextSegmentConfig::apply_parent_config` lives in
`next_core::app_segment_config`, outside the embedded file.  Per the spec's
merge policy ("each layout's config overriding only the fields it
explicitly sets on the accumulator — innermost wins field-by-field"),
applying a parent (outer) config fills in only the fields the accumulator
has not set yet, so that a field set closer to the route is never
overwritten by an outer layout. -/
def NextSegmentConfig.applyParentConfig (c parent : NextSegmentConfig) : NextSegmentConfig :=
  { runtime := match c.runtime with
      | some v => some v
      | none => parent.runtime,
    preferredRegion := match c.preferredRegion with
      | some v => some v
      | none => parent.preferredRegion }

/-- The segment-config computation of `AppEndpoint::app_route_entry`
(`app.rs` lines 722-735): no config at all when there are no root layouts,
otherwise start from the default config and fold `apply_parent_config`
over the root-layout configs in reverse order (the list is ordered
outermost→innermost, so the fold visits the innermost layout first). -/
def routeSegmentConfig (rootLayouts : List NextSegmentConfig) : Option NextSegmentConfig :=
  if rootLayouts.isEmpty then
    none
  else
    some (rootLayouts.reverse.foldl NextSegmentConfig.applyParentConfig
      NextSegmentConfig.defaultConfig)

/-- The value a field-by-field innermost-wins merge assigns to one field:
the value set by the layout closest to the route (the last one in the
outermost→innermost list) that sets the field at all. -/
def innermostSetting {α : Type} (f : NextSegmentConfig → Option α)
    (cfgs : List NextSegmentConfig) : Option α :=
  cfgs.reverse.findSome? f

theorem foldl_applyParentConfig_runtime (l : List NextSegmentConfig)
    (acc : NextSegmentConfig) :
    (l.foldl NextSegmentConfig.applyParentConfig acc).runtime =
      match acc.runtime with
      | some v => some v
      | none => l.findSome? (fun c => c.runtime) := by
  induction l generalizing acc with
  | nil => cases hacc : acc.runtime <;> simp [hacc]
  | cons c l ih =>
    simp only [List.foldl_cons, ih, List.findSome?]
    cases hacc : acc.runtime <;>
      simp [NextSegmentConfig.applyParentConfig, hacc] <;>
      cases hc : c.runtime <;> simp [hc]

theorem foldl_applyParentConfig_preferredRegion (l : List NextSegmentConfig)
    (acc : NextSegmentConfig) :
    (l.foldl NextSegmentConfig.applyParentConfig acc).preferredRegion =
      match acc.preferredRegion with
      | some v => some v
      | none => l.findSome? (fun c => c.preferredRegion) := by
  induction l generalizing acc with
  | nil => cases hacc : acc.preferredRegion <;> simp [hacc]
  | cons c l ih =>
    simp only [List.foldl_cons, ih, List.findSome?]
    cases hacc : acc.preferredRegion <;>
      simp [NextSegmentConfig.applyParentConfig, hacc] <;>
      cases hc : c.preferredRegion <;> simp [hc]

/-!
## Module contexts and transitions

`AppProject`'s context constructors (`app.rs` lines 287-416) build one
`ModuleAssetContext` per server context kind and runtime variant.  Each
constructor is a closed expression over the project; the embedding records
the data each constructor passes: the named-transition table, the
compile-time info, the module-options context, the resolve-options
context, and the layer name.  Options contexts are identified by the
`(context type, runtime)` arguments the source passes to
`get_server_module_options_context` / `get_server_resolve_options_context`
/ `get_edge_resolve_options_context`.
-/

/-- Which compile-time info a context is built with (`server_compile_time_info`,
`edge_compile_time_info`, `client_compile_time_info` on the project). -/
inductive CompileTimeInfo where
  | server
  | edge
  | client
deriving DecidableEq, Repr

/-- The `ServerContextType` tag passed when building options contexts. -/
inductive ServerContextTy where
  | appRSC
  | appRoute
  | appSSR
deriving DecidableEq, Repr

/-- Identity of a `ModuleOptionsContext`: the arguments `app.rs` passes to
`get_server_module_options_context` (context type and `NextRuntime`). -/
structure ModuleOptionsCtxId where
  ty : ServerContextTy
  runtime : NextRuntime
deriving DecidableEq, Repr

/-- Identity of a `ResolveOptionsContext`: the context type, and whether the
edge resolver (`get_edge_resolve_options_context`) was used instead of the
server one. -/
structure ResolveOptionsCtxId where
  ty : ServerContextTy
  edgeResolve : Bool
deriving DecidableEq, Repr

/-- A `ContextTransition` (`app.rs` lines 476-513): compile-time info, the
two options contexts, and the target layer name. -/
structure ContextTransitionData where
  compileTimeInfo : CompileTimeInfo
  moduleOptions : ModuleOptionsCtxId
  resolveOptions : ResolveOptionsCtxId
  name : String
deriving DecidableEq, Repr

/-- A named transition installed in a module context: the client-reference
crossing (which carries the SSR twin transition it was built with), the
dynamic-import boundary, or a plain context transition. -/
inductive TransitionData where
  | ecmascriptClientReference (ssr : ContextTransitionData)
  | nextDynamic
  | context (t : ContextTransitionData)
deriving DecidableEq, Repr

/-- The data `ModuleAssetContext::new` receives (`app.rs` lines 305-315 and
analogues): named transitions, compile-time info, options contexts, layer. -/
structure ModuleAssetContextData where
  transitions : List (String × TransitionData)
  compileTimeInfo : CompileTimeInfo
  moduleOptions : ModuleOptionsCtxId
  resolveOptions : ResolveOptionsCtxId
  layer : String
deriving DecidableEq, Repr

/-- `ECMASCRIPT_CLIENT_TRANSITION_NAME` (`app.rs` line 119). -/
def ecmascriptClientTransitionName : String := "next-ecmascript-client-reference"

/-- `AppProject::ssr_transition` (lines 476-483). -/
def ssrTransition : ContextTransitionData :=
  { compileTimeInfo := CompileTimeInfo.server,
    moduleOptions := { ty := ServerContextTy.appSSR, runtime := NextRuntime.nodeJs },
    resolveOptions := { ty := ServerContextTy.appSSR, edgeResolve := false },
    name := "app-ssr" }

/-- `AppProject::shared_transition` (lines 486-493). -/
def sharedTransition : ContextTransitionData :=
  { compileTimeInfo := CompileTimeInfo.server,
    moduleOptions := { ty := ServerContextTy.appSSR, runtime := NextRuntime.nodeJs },
    resolveOptions := { ty := ServerContextTy.appSSR, edgeResolve := false },
    name := "app-shared" }

/-- `AppProject::edge_ssr_transition` (lines 495-503). -/
def edgeSsrTransition : ContextTransitionData :=
  { compileTimeInfo := CompileTimeInfo.edge,
    moduleOptions := { ty := ServerContextTy.appSSR, runtime := NextRuntime.edge },
    resolveOptions := { ty := ServerContextTy.appSSR, edgeResolve := true },
    name := "app-edge-ssr" }

/-- `AppProject::edge_shared_transition` (lines 505-513). -/
def edgeSharedTransition : ContextTransitionData :=
  { compileTimeInfo := CompileTimeInfo.edge,
    moduleOptions := { ty := ServerContextTy.appSSR, runtime := NextRuntime.edge },
    resolveOptions := { ty := ServerContextTy.appSSR, edgeResolve := true },
    name := "app-edge-shared" }

/-- `AppProject::client_reference_transition` (lines 271-277): the
client-reference crossing built over the NodeJs SSR twin transition. -/
def clientReferenceTransition : TransitionData :=
  TransitionData.ecmascriptClientReference ssrTransition

/-- `AppProject::edge_client_reference_transition` (lines 279-285). -/
def edgeClientReferenceTransition : TransitionData :=
  TransitionData.ecmascriptClientReference edgeSsrTransition

/-- `AppProject::rsc_module_context` (lines 287-316). -/
def rscModuleContext : ModuleAssetContextData :=
  { transitions :=
      [(ecmascriptClientTransitionName, clientReferenceTransition),
       ("next-dynamic", TransitionData.nextDynamic),
       ("next-ssr", TransitionData.context ssrTransition),
       ("next-shared", TransitionData.context sharedTransition)],
    compileTimeInfo := CompileTimeInfo.server,
    moduleOptions := { ty := ServerContextTy.appRSC, runtime := NextRuntime.nodeJs },
    resolveOptions := { ty := ServerContextTy.appRSC, edgeResolve := false },
    layer := "app-rsc" }

/-- `AppProject::edge_rsc_module_context` (lines 318-350). -/
def edgeRscModuleContext : ModuleAssetContextData :=
  { transitions :=
      [(ecmascriptClientTransitionName, edgeClientReferenceTransition),
       ("next-dynamic", TransitionData.nextDynamic),
       ("next-ssr", TransitionData.context edgeSsrTransition),
       ("next-shared", TransitionData.context edgeSharedTransition)],
    compileTimeInfo := CompileTimeInfo.edge,
    moduleOptions := { ty := ServerContextTy.appRSC, runtime := NextRuntime.edge },
    resolveOptions := { ty := ServerContextTy.appRSC, edgeResolve := true },
    layer := "app-edge-rsc" }

/-- `AppProject::route_module_context` (lines 352-382). -/
def routeModuleContext : ModuleAssetContextData :=
  { transitions :=
      [(ecmascriptClientTransitionName, clientReferenceTransition),
       ("next-dynamic", TransitionData.nextDynamic),
       ("next-ssr", TransitionData.context ssrTransition),
       ("next-shared", TransitionData.context sharedTransition)],
    compileTimeInfo := CompileTimeInfo.server,
    moduleOptions := { ty := ServerContextTy.appRoute, runtime := NextRuntime.nodeJs },
    resolveOptions := { ty := ServerContextTy.appRoute, edgeResolve := false },
    layer := "app-route" }

/-- `AppProject::edge_route_module_context` (lines 384-416).  Note that the
source installs the non-edge `ssr_transition` under "next-ssr" here (line
397) while using the edge shared transition under "next-shared". -/
def edgeRouteModuleContext : ModuleAssetContextData :=
  { transitions :=
      [(ecmascriptClientTransitionName, edgeClientReferenceTransition),
       ("next-dynamic", TransitionData.nextDynamic),
       ("next-ssr", TransitionData.context ssrTransition),
       ("next-shared", TransitionData.context edgeSharedTransition)],
    compileTimeInfo := CompileTimeInfo.edge,
    moduleOptions := { ty := ServerContextTy.appRoute, runtime := NextRuntime.edge },
    resolveOptions := { ty := ServerContextTy.appRoute, edgeResolve := true },
    layer := "app-edge-route" }

/-!
## Output assets and path helpers

An `OutputAsset` is an emittable file with a target path.  JSON
serialization is out of the spec's scope, so manifest assets carry their
structured manifest content instead of encoded bytes.
-/

/-- `AppBuildManifest` (`next_core::next_manifests`): per-page client chunk
paths keyed by route original name. -/
structure AppBuildManifest where
  pages : List (String × List String)
deriving DecidableEq, Repr

/-- `BuildManifest`, restricted to the fields `app.rs` fills in (lines
960-964): the shared root JS files and the polyfill files. -/
structure BuildManifest where
  rootMainFiles : List String
  polyfillFiles : List String
deriving DecidableEq, Repr

/-- `PagesManifest`: route original name to server file path. -/
structure PagesManifest where
  pages : List (String × String)
deriving DecidableEq, Repr

/-- `AppPathsManifest`, restricted to the field `app.rs` fills in
(`node_server_app_paths`, lines 1021-1026). -/
structure AppPathsManifest where
  nodeServerAppPaths : PagesManifest
deriving DecidableEq, Repr

/-- `MiddlewareMatcher`, restricted to the fields `app.rs` fills in (lines
1127-1131). -/
structure MiddlewareMatcher where
  regexp : Option String
  originalSource : String
deriving DecidableEq, Repr

/-- `EdgeFunctionDefinition` (lines 1132-1146).  Wasm and asset bindings are
reduced to their file paths. -/
structure EdgeFunctionDefinition where
  files : List String
  wasm : List String
  assets : List String
  name : String
  page : String
  regions : Option (List String)
  matchers : List MiddlewareMatcher
  envVars : List (String × String)
deriving DecidableEq, Repr

/-- `MiddlewaresManifestV2`, restricted to the fields `app.rs` fills in
(lines 1147-1153). -/
structure MiddlewaresManifestV2 where
  sortedMiddleware : List String
  functions : List (String × EdgeFunctionDefinition)
deriving DecidableEq, Repr

/-- What kind of file an output asset is.  Code chunks and verbatim-copied
assets carry no manifest payload; manifest assets carry the structured
manifest that `app.rs` serializes into them. -/
inductive AssetKind where
  | chunk
  | raw
  | appBuildManifest (m : AppBuildManifest)
  | buildManifest (m : BuildManifest)
  | clientReferenceManifest
  | middlewareManifest (m : MiddlewaresManifestV2)
  | appPathsManifest (m : AppPathsManifest)
  | fontManifest
  | serverActionsManifest
  | loadableManifest
deriving DecidableEq, Repr

/-- An emittable output file: target path plus kind/content. -/
structure OutputAsset where
  path : String
  kind : AssetKind
deriving DecidableEq, Repr

/-- A code chunk emitted by a chunking context at the given path. -/
def mkChunk (p : String) : OutputAsset :=
  { path := p, kind := AssetKind.chunk }

/-- `suffix.isSuffixOf s` on the character lists: used to test file
extensions (`.js`, `.wasm`) the way `crate::paths` and
`extension_ref` do. -/
def pathEndsWith (s suffix : String) : Bool :=
  suffix.data.isSuffixOf s.data

/-- `FileSystemPath::get_path_to` (turbo-tasks-fs, outside the embedded
file), modelled from the spec's path contracts: the path of `p` relative
to `root` when `p` lies strictly inside `root`, and `none` otherwise. -/
def getPathTo (root p : String) : Option String :=
  let rootSlash := root ++ "/"
  if rootSlash.data.isPrefixOf p.data then
    some (String.mk (p.data.drop rootSlash.data.length))
  else
    none

/-- Modelled from the spec: `get_js_paths_from_root` (`crate::paths`,
outside the embedded file) — the root-relative paths of the given assets
that are JS files inside the root. -/
def getJsPathsFromRoot (root : String) (assets : List OutputAsset) : List String :=
  assets.filterMap fun a =>
    if pathEndsWith a.path ".js" then getPathTo root a.path else none

/-- Modelled from the spec: `get_wasm_paths_from_root` (`crate::paths`) —
the root-relative paths of the given assets that are wasm files inside the
root. -/
def getWasmPathsFromRoot (root : String) (assets : List OutputAsset) : List String :=
  assets.filterMap fun a =>
    if pathEndsWith a.path ".wasm" then getPathTo root a.path else none

/-- Modelled from the spec: `get_paths_from_root` with the always-true
filter (`app.rs` lines 1119-1121) — the root-relative paths of every asset
inside the root. -/
def getAllPathsFromRoot (root : String) (assets : List OutputAsset) : List String :=
  assets.filterMap fun a => getPathTo root a.path

/-- Modelled from the spec: `all_assets_from_entries` is the transitive
closure of assets referenced from the given entry assets; the environment
already supplies the complete asset list, so the closure is the list
itself. -/
def allAssetsFromEntries (entries : List OutputAsset) : List OutputAsset :=
  entries

/-- Modelled from the spec: `wasm_paths_to_bindings` (`crate::paths`) —
bindings reduced to their file paths. -/
def wasmPathsToBindings (paths : List String) : List String :=
  paths

/-- Modelled from the spec: `paths_to_bindings` (`crate::paths`) — bindings
reduced to their file paths. -/
def pathsToBindings (paths : List String) : List String :=
  paths

/-- Modelled from the spec: `get_named_middleware_regex`
(`next_core::next_edge::route_regex`) — the named path regex derived from
the route pathname. -/
def getNamedMiddlewareRegex (pathname : String) : String :=
  "^" ++ pathname ++ "$"

/-!
## Endpoint environment

`AppEndpoint::output` is a memoized computation whose external inputs are
the entry (with its merged segment config and naming), the project roots,
and the results of the external chunking/graph computations (shared client
chunk group, per-client-reference chunk groups, dynamic-import
collections, the edge evaluated chunk group, the NodeJs entry chunk).  The
environment packages those inputs; `output` below is the `app.rs`
computation over them.
-/

/-- `AppPageEndpointType` (`app.rs` lines 673-677). -/
inductive AppPageEndpointType where
  | html
  | rsc
deriving DecidableEq, Repr

/-- `AppEndpointType` (lines 679-692), with the live graph handles elided. -/
inductive AppEndpointType where
  | page (pageTy : AppPageEndpointType)
  | route
  | metadata
deriving DecidableEq, Repr

/-- The external inputs of one `AppEndpoint::output` evaluation. -/
structure AppEndpointEnv where
  /-- The endpoint type (`self.ty`). -/
  ty : AppEndpointType
  /-- `app_entry.config`: the entry's merged segment config. -/
  config : NextSegmentConfig
  /-- `app_entry.original_name`. -/
  originalName : String
  /-- `app_entry.pathname`. -/
  pathname : String
  /-- `project().node_root()`. -/
  nodeRoot : String
  /-- `project().client_relative_path()`. -/
  clientRelativePath : String
  /-- Asset paths of `get_app_client_shared_chunk_group`'s chunk group. -/
  sharedChunkPaths : List String
  /-- Per layout segment: the client chunk paths the external chunking
  produced before availability filtering
  (`layout_segment_client_chunks` values). -/
  layoutSegmentClientChunkPaths : List (List String)
  /-- Per client component: the client chunk paths before availability
  filtering (`client_component_client_chunks` values). -/
  clientComponentClientChunkPaths : List (List String)
  /-- Per client component: the SSR twin chunk paths
  (`client_component_ssr_chunks` values). -/
  clientComponentSsrChunkPaths : List (List String)
  /-- `client_chunking_context.chunk_path(polyfill_source.ident(), ".js")`. -/
  polyfillPath : String
  /-- `get_app_server_reference_modules(client_reference_types)` result. -/
  serverReferenceModules : List String
  /-- `collect_next_dynamic_imports` over the client references. -/
  clientDynamicImports : List String
  /-- `collect_next_dynamic_imports` over the RSC entry. -/
  entryDynamicImports : List String
  /-- Asset paths of `evaluated_chunk_group_assets` for the Edge entry. -/
  edgeFilesPaths : List String
  /-- Path of the `entry_chunk_group` asset for the NodeJs entry. -/
  rscChunkPath : String
  /-- `project().edge_env()`. -/
  edgeEnv : List (String × String)
deriving DecidableEq, Repr

/-- The `(process_client, process_ssr)` selection of `app.rs` lines
794-801: pages process the client, only Html pages process SSR; routes and
metadata process neither. -/
def processClientSsr : AppEndpointType → Bool × Bool
  | AppEndpointType.page pageTy =>
      (true, match pageTy with
        | AppPageEndpointType.html => true
        | AppPageEndpointType.rsc => false)
  | AppEndpointType.route => (false, false)
  | AppEndpointType.metadata => (false, false)

/-- A chunk group as the external chunk planner returns it: its assets and
the availability info downstream groups are computed against. -/
structure ChunkGroupResult where
  assets : List OutputAsset
  availabilityInfo : List OutputAsset
deriving DecidableEq, Repr

/-- Modelled from the spec: `get_app_client_shared_chunk_group`
(`next_core::next_app`, outside the embedded file) — the shared client
chunk group computed once per AppProject; its availability info covers
exactly its emitted assets and becomes the baseline for every per-route
chunk group. -/
def getAppClientSharedChunkGroup (env : AppEndpointEnv) : ChunkGroupResult :=
  { assets := env.sharedChunkPaths.map mkChunk,
    availabilityInfo := env.sharedChunkPaths.map mkChunk }

/-- The `ClientReferencesChunks` value (`next_core::next_app`): chunk lists
per layout segment, per client component (client side) and per client
component (SSR side). -/
structure ClientReferencesChunks where
  layoutSegmentClientChunks : List (List OutputAsset)
  clientComponentClientChunks : List (List OutputAsset)
  clientComponentSsrChunks : List (List OutputAsset)
deriving DecidableEq, Repr

/-- Modelled from the spec: `get_app_client_references_chunks`
(`next_core::next_app`, outside the embedded file) — the per-reference
chunk groups computed against an availability baseline.  A chunk group
computed against a baseline must not re-include any asset the baseline
already covers, and the SSR twin chunks exist only when an SSR chunking
context is supplied. -/
def getAppClientReferencesChunks (raw : ClientReferencesChunks)
    (availability : List OutputAsset) (hasSsrContext : Bool) : ClientReferencesChunks :=
  { layoutSegmentClientChunks :=
      raw.layoutSegmentClientChunks.map fun l =>
        l.filter fun a => !(decide (a ∈ availability)),
    clientComponentClientChunks :=
      raw.clientComponentClientChunks.map fun l =>
        l.filter fun a => !(decide (a ∈ availability)),
    clientComponentSsrChunks :=
      if hasSsrContext then raw.clientComponentSsrChunks else [] }

/-- The raw (pre-availability) per-reference chunk lists the environment
supplies, as `OutputAsset`s. -/
def rawClientReferencesChunksOf (env : AppEndpointEnv) : ClientReferencesChunks :=
  { layoutSegmentClientChunks := env.layoutSegmentClientChunkPaths.map (List.map mkChunk),
    clientComponentClientChunks := env.clientComponentClientChunkPaths.map (List.map mkChunk),
    clientComponentSsrChunks := env.clientComponentSsrChunkPaths.map (List.map mkChunk) }

/-- The `client_references_chunks` value `AppEndpoint::output` computes
(`app.rs` lines 878-884): the per-reference chunk groups computed against
the shared chunk group's availability info, with the SSR chunking context
present exactly when the endpoint processes SSR. -/
def clientReferencesChunksOf (env : AppEndpointEnv) (processSsr : Bool) : ClientReferencesChunks :=
  getAppClientReferencesChunks (rawClientReferencesChunksOf env)
    (getAppClientSharedChunkGroup env).availabilityInfo processSsr

/-- Modelled from the spec: the font manifest asset
(`create_font_manifest`, `crate::font`, outside the embedded file) emitted
under the route's server directory. -/
def fontManifestAsset (nodeRoot originalName : String) : OutputAsset :=
  { path := nodeRoot ++ "/server/app" ++ originalName ++ "/next-font-manifest.json",
    kind := AssetKind.fontManifest }

/-- Modelled from the spec: the client-reference manifest asset
(`ClientReferenceManifest::build_output`, `next_core::next_manifests`,
outside the embedded file), a JS server asset keyed by the route. -/
def clientReferenceManifestAsset (nodeRoot originalName : String) : OutputAsset :=
  { path := nodeRoot ++ "/server/app" ++ originalName ++ "_client-reference-manifest.js",
    kind := AssetKind.clientReferenceManifest }

/-- Modelled from the spec: the server-actions manifest asset
(`create_server_actions_manifest`, `crate::server_actions`, outside the
embedded file) emitted under the route's server directory. -/
def serverActionsManifestAsset (nodeRoot originalName : String) : OutputAsset :=
  { path := nodeRoot ++ "/server/app" ++ originalName ++ "/server-reference-manifest.json",
    kind := AssetKind.serverActionsManifest }

/-- Modelled from the spec: the react-loadable manifest assets
(`create_react_loadable_manifest`, `crate::loadable_manifest`, outside the
embedded file) at the path `app.rs` lines 1188-1195 / 1277-1284 request. -/
def loadableManifestAssets (nodeRoot originalName : String) : List OutputAsset :=
  [{ path := nodeRoot ++ "/server/app" ++ originalName ++ "/react-loadable-manifest.json",
     kind := AssetKind.loadableManifest }]

/-- `create_app_paths_manifest` (`app.rs` lines 1013-1033): the
app-paths-manifest asset mapping the route original name to `filename`. -/
def createAppPathsManifest (nodeRoot originalName filename : String) : OutputAsset :=
  { path := nodeRoot ++ "/server/app" ++ originalName ++ "/app-paths-manifest.json",
    kind := AssetKind.appPathsManifest
      { nodeServerAppPaths := { pages := [(originalName, filename)] } } }

/-!
## The output computation (`AppEndpoint::output`, lines 789-1298)
-/

/-- `AppEndpointOutput` (lines 1398-1410). -/
inductive AppEndpointOutput where
  | nodeJs (rscChunk : OutputAsset) (serverAssets : List OutputAsset)
      (clientAssets : List OutputAsset)
  | edge (files : List OutputAsset) (serverAssets : List OutputAsset)
      (clientAssets : List OutputAsset)
deriving DecidableEq, Repr

/-- `AppEndpointOutput::server_assets` (lines 1427-1433). -/
def AppEndpointOutput.serverAssetsOf : AppEndpointOutput → List OutputAsset
  | AppEndpointOutput.nodeJs _ serverAssets _ => serverAssets
  | AppEndpointOutput.edge _ serverAssets _ => serverAssets

/-- `AppEndpointOutput::client_assets` (lines 1435-1441). -/
def AppEndpointOutput.clientAssetsOf : AppEndpointOutput → List OutputAsset
  | AppEndpointOutput.nodeJs _ _ clientAssets => clientAssets
  | AppEndpointOutput.edge _ _ clientAssets => clientAssets

/-- `AppEndpointOutput::output_assets` (lines 1414-1425): server assets
chained with client assets. -/
def AppEndpointOutput.outputAssets (o : AppEndpointOutput) : List OutputAsset :=
  o.serverAssetsOf ++ o.clientAssetsOf

/-- What the `process_client` block of `AppEndpoint::output` (lines
823-1011) produces: the accumulated server/client/middleware asset lists
and the two `Option` values of line 1005-1010. -/
structure ClientProcessingResult where
  serverAssets : List OutputAsset
  clientAssets : List OutputAsset
  middlewareAssets : List OutputAsset
  appServerReferenceModules : Option (List String)
  clientDynamicImports : Option (List String)
deriving DecidableEq, Repr

/-- The empty result used when the endpoint does not process the client
(`app.rs` line 1010: `(None, None)`, with the three asset vectors still at
their initial empty state). -/
def emptyClientProcessingResult : ClientProcessingResult :=
  { serverAssets := [], clientAssets := [], middlewareAssets := [],
    appServerReferenceModules := none, clientDynamicImports := none }

/-- The `client_shared_chunks_paths` list (lines 832-842): the
client-relative paths of the shared chunk group's JS assets. -/
def sharedJsPaths (env : AppEndpointEnv) : List String :=
  (getAppClientSharedChunkGroup env).assets.filterMap fun chunk =>
    if pathEndsWith chunk.path ".js" then
      getPathTo env.clientRelativePath chunk.path
    else none

/-- The app-build-manifest asset (lines 927-941) with the given
entry-client chunk path list. -/
def appBuildManifestAssetOf (env : AppEndpointEnv) (paths : List String) : OutputAsset :=
  { path := env.nodeRoot ++ "/server/app" ++ env.originalName ++ "/app-build-manifest.json",
    kind := AssetKind.appBuildManifest { pages := [(env.originalName, paths)] } }

/-- The build-manifest asset (lines 960-971) with the given shared root
files and polyfill path. -/
def buildManifestAssetOf (env : AppEndpointEnv) (rootMainFiles : List String)
    (polyfillClientPath : String) : OutputAsset :=
  { path := env.nodeRoot ++ "/server/app" ++ env.originalName ++ "/build-manifest.json",
    kind := AssetKind.buildManifest
      { rootMainFiles := rootMainFiles, polyfillFiles := [polyfillClientPath] } }

/-- The `entry_client_chunks` set (lines 886-894): the deduplicated union
of the per-layout-segment client chunk lists. -/
def entryClientChunksOf (env : AppEndpointEnv) (processSsr : Bool) : List OutputAsset :=
  (clientReferencesChunksOf env processSsr).layoutSegmentClientChunks.flatten.dedup

/-- The `process_client` block of `AppEndpoint::output` (lines 823-1011):
shared client chunks, the client-reference chunk groups against the shared
availability baseline, the app-build manifest, the polyfill and build
manifest, the client-reference manifest, and — for the Edge runtime — the
middleware asset list that inlines every client-component SSR chunk.
`none` models the two `?`-propagated path errors (lines 916-924 and
953-956); the asset-vector pushes are accumulated in the success branch in
their source order. -/
def clientProcessing (env : AppEndpointEnv) (runtime : NextRuntime)
    (processSsr : Bool) : Option ClientProcessingResult :=
  match (entryClientChunksOf env processSsr).mapM
      (fun chunk => getPathTo env.clientRelativePath chunk.path) with
  | none => none
  | some entryClientPaths =>
    match getPathTo env.clientRelativePath env.polyfillPath with
    | none => none
    | some polyfillClientPath =>
      let crc := clientReferencesChunksOf env processSsr
      let entrySsrChunks := crc.clientComponentSsrChunks.flatten.dedup
      let serverAssets := entrySsrChunks
      let entryClientChunksPaths := entryClientPaths ++ sharedJsPaths env
      let serverAssets := serverAssets ++ [appBuildManifestAssetOf env entryClientChunksPaths]
      let serverAssets := serverAssets
        ++ [buildManifestAssetOf env (sharedJsPaths env) polyfillClientPath]
      let entryManifest := clientReferenceManifestAsset env.nodeRoot env.originalName
      let serverAssets := serverAssets ++ [entryManifest]
      let clientAssets := (getAppClientSharedChunkGroup env).assets
      let clientAssets := clientAssets ++ crc.clientComponentClientChunks.flatten
      let clientAssets := clientAssets ++ entryClientChunksOf env processSsr
      let clientAssets := clientAssets ++ [{ path := env.polyfillPath, kind := AssetKind.raw }]
      let middlewareAssets :=
        if runtime = NextRuntime.edge then
          entryManifest :: crc.clientComponentSsrChunks.flatten
        else []
      some { serverAssets := serverAssets, clientAssets := clientAssets,
             middlewareAssets := middlewareAssets,
             appServerReferenceModules := some env.serverReferenceModules,
             clientDynamicImports := some env.clientDynamicImports }

/-- The five files the next-edge-ssr-loader templates expect; they are
created externally in `setup-dev-bundler.ts` (`app.rs` lines 1092-1102). -/
def devBundlerProvidedFiles : List String :=
  ["server/server-reference-manifest.js",
   "server/middleware-build-manifest.js",
   "server/middleware-react-loadable-manifest.js",
   "server/next-font-manifest.js",
   "server/interception-route-rewrite-manifest.js"]

/-- The Edge arm of `AppEndpoint::output` (lines 1051-1203): emit the
server-actions manifest when server reference modules exist, take the
evaluated edge chunk group as `files`, build the edge-function definition
whose file list is the dev-bundler-provided files plus the JS paths of the
middleware assets and of `files`, then the middleware manifest, the
sentinel app-paths manifest, and the loadable manifest. -/
def edgeOutput (env : AppEndpointEnv) (c : ClientProcessingResult)
    (serverAssets0 : List OutputAsset) : AppEndpointOutput :=
  let serverAssets := serverAssets0 ++
    (match c.appServerReferenceModules with
     | some _ => [serverActionsManifestAsset env.nodeRoot env.originalName]
     | none => [])
  let files := env.edgeFilesPaths.map mkChunk
  let serverAssets := serverAssets ++ files
  let filePathsFromRoot :=
    devBundlerProvidedFiles
      ++ getJsPathsFromRoot env.nodeRoot c.middlewareAssets
      ++ getJsPathsFromRoot env.nodeRoot files
  let allOutputAssets := allAssetsFromEntries files
  let wasmPathsFromRoot :=
    getWasmPathsFromRoot env.nodeRoot c.middlewareAssets
      ++ getWasmPathsFromRoot env.nodeRoot allOutputAssets
  let allAssets := getAllPathsFromRoot env.nodeRoot allOutputAssets
  let entryFile := "app-edge-has-no-entrypoint"
  let edgeFunctionDefinition : EdgeFunctionDefinition :=
    { files := filePathsFromRoot,
      wasm := wasmPathsToBindings wasmPathsFromRoot,
      assets := pathsToBindings allAssets,
      name := env.pathname,
      page := env.originalName,
      regions := env.config.preferredRegion,
      matchers := [{ regexp := some (getNamedMiddlewareRegex env.pathname),
                     originalSource := env.pathname }],
      envVars := env.edgeEnv }
  let middlewareManifestV2 : MiddlewaresManifestV2 :=
    { sortedMiddleware := [env.originalName],
      functions := [(env.originalName, edgeFunctionDefinition)] }
  let middlewareManifestAsset : OutputAsset :=
    { path := env.nodeRoot ++ "/server/app" ++ env.originalName ++ "/middleware-manifest.json",
      kind := AssetKind.middlewareManifest middlewareManifestV2 }
  let serverAssets := serverAssets ++ [middlewareManifestAsset]
  let serverAssets := serverAssets
    ++ [createAppPathsManifest env.nodeRoot env.originalName entryFile]
  let serverAssets := serverAssets ++ loadableManifestAssets env.nodeRoot env.originalName
  AppEndpointOutput.edge files serverAssets c.clientAssets

/-- The NodeJs arm of `AppEndpoint::output` (lines 1205-1293): emit the
server-actions manifest when server reference modules exist, take the
`entry_chunk_group` RSC chunk, record its server-path-relative path in the
app-paths manifest (`?`-propagating when the chunk lies outside the server
path), and add the loadable manifest. -/
def nodeJsOutput (env : AppEndpointEnv) (c : ClientProcessingResult)
    (serverAssets0 : List OutputAsset) : Option AppEndpointOutput :=
  match getPathTo (env.nodeRoot ++ "/server") (mkChunk env.rscChunkPath).path with
  | none => none
  | some rel =>
    let serverAssets := serverAssets0 ++
      (match c.appServerReferenceModules with
       | some _ => [serverActionsManifestAsset env.nodeRoot env.originalName]
       | none => [])
    let rscChunk := mkChunk env.rscChunkPath
    let serverAssets := serverAssets ++ [rscChunk]
    let serverAssets := serverAssets
      ++ [createAppPathsManifest env.nodeRoot env.originalName rel]
    let serverAssets := serverAssets ++ loadableManifestAssets env.nodeRoot env.originalName
    some (AppEndpointOutput.nodeJs rscChunk serverAssets c.clientAssets)

/-- The resolved runtime (line 815):
`app_entry.config.runtime.unwrap_or_default()`. -/
def resolvedRuntime (env : AppEndpointEnv) : NextRuntime :=
  env.config.runtime.getD NextRuntime.defaultRuntime

/-- The client-processing step of `output`: run the `process_client` block
for pages (line 823), otherwise keep the asset vectors empty and pass
`(None, None)` on (lines 1009-1011). -/
def clientProcessingStep (env : AppEndpointEnv) : Option ClientProcessingResult :=
  if (processClientSsr env.ty).1 then
    clientProcessing env (resolvedRuntime env) (processClientSsr env.ty).2
  else
    some emptyClientProcessingResult

/-- `AppEndpoint::output` (lines 789-1298): select client/SSR processing
from the endpoint type, resolve the runtime with
`config.runtime.unwrap_or_default()`, run the client-processing block for
pages, append the font manifest, and branch into the Edge or NodeJs output
arm. -/
def output (env : AppEndpointEnv) : Option AppEndpointOutput :=
  match clientProcessingStep env with
  | none => none
  | some c =>
    let serverAssets := c.serverAssets ++ [fontManifestAsset env.nodeRoot env.originalName]
    match resolvedRuntime env with
    | NextRuntime.edge => some (edgeOutput env c serverAssets)
    | NextRuntime.nodeJs => nodeJsOutput env c serverAssets

/-!
## write_to_disk (`Endpoint for AppEndpoint`, lines 1303-1371)
-/

/-- `WrittenEndpoint` (`crate::route`): the externally observable result of
materializing an endpoint.  Only the NodeJs variant carries a server entry
path. -/
inductive WrittenEndpoint where
  | nodeJs (serverEntryPath : String) (serverPaths : List String)
      (clientPaths : List String)
  | edge (serverPaths : List String) (clientPaths : List String)
deriving DecidableEq, Repr

/-- The emission target: a file system mapping paths to the assets written
at them. -/
abbrev EmittedFiles : Type := List (String × OutputAsset)

/-- Modelled from the spec: `emit_all_output_assets` (on the project,
outside the embedded file) writes every output asset to its target path,
replacing any previous file at that path and leaving unrelated files
untouched. -/
def emitAllOutputAssets (fs : EmittedFiles) (assets : List OutputAsset) : EmittedFiles :=
  assets.map (fun a => (a.path, a))
    ++ fs.filter fun e => !(assets.any fun a => decide (a.path = e.1))

/-- Modelled from the spec: `all_server_paths` (`crate::paths`) — the
node-root-relative paths of all emitted assets below the node root. -/
def allServerPaths (assets : List OutputAsset) (nodeRoot : String) : List String :=
  assets.filterMap fun a => getPathTo nodeRoot a.path

/-- Modelled from the spec: `all_paths_in_root` (`crate::paths`) — the
root-relative paths of all emitted assets below the client-relative
root. -/
def allPathsInRoot (assets : List OutputAsset) (root : String) : List String :=
  assets.filterMap fun a => getPathTo root a.path

/-- `AppEndpoint::write_to_disk` (lines 1303-1371): compute `output()`,
emit all its assets, collect the server- and client-relative path lists,
and build the `WrittenEndpoint` for the output variant; for NodeJs the
server entry path is the node-root-relative path of the RSC chunk
(`?`-propagating when it lies outside the node root). -/
def writeToDisk (env : AppEndpointEnv) (fs : EmittedFiles) :
    Option (EmittedFiles × WrittenEndpoint) :=
  match output env with
  | none => none
  | some o =>
    let outputAssets := o.outputAssets
    let fs1 := emitAllOutputAssets fs outputAssets
    let serverPaths := allServerPaths outputAssets env.nodeRoot
    let clientPaths := allPathsInRoot outputAssets env.clientRelativePath
    match o with
    | AppEndpointOutput.nodeJs rscChunk _ _ =>
      match getPathTo env.nodeRoot rscChunk.path with
      | none => none
      | some entry =>
        some (fs1, WrittenEndpoint.nodeJs entry serverPaths clientPaths)
    | AppEndpointOutput.edge _ _ _ =>
      some (fs1, WrittenEndpoint.edge serverPaths clientPaths)

/-!
## Inversion lemmas

Shape lemmas extracting the exact asset lists a successful computation
produced; every claim proof below works from these.
-/

/-- The server-actions manifest assets the output arms prepend when server
reference modules were collected (lines 1067-1081 / 1214-1228). -/
def serverActionsAssetsOf (env : AppEndpointEnv) (c : ClientProcessingResult) :
    List OutputAsset :=
  match c.appServerReferenceModules with
  | some _ => [serverActionsManifestAsset env.nodeRoot env.originalName]
  | none => []

theorem clientProcessing_some_elim {env : AppEndpointEnv} {runtime : NextRuntime}
    {processSsr : Bool} {c : ClientProcessingResult}
    (h : clientProcessing env runtime processSsr = some c) :
    ∃ entryClientPaths polyfillClientPath,
      (entryClientChunksOf env processSsr).mapM
          (fun chunk => getPathTo env.clientRelativePath chunk.path) = some entryClientPaths
      ∧ getPathTo env.clientRelativePath env.polyfillPath = some polyfillClientPath
      ∧ c.serverAssets =
          (clientReferencesChunksOf env processSsr).clientComponentSsrChunks.flatten.dedup
          ++ [appBuildManifestAssetOf env (entryClientPaths ++ sharedJsPaths env)]
          ++ [buildManifestAssetOf env (sharedJsPaths env) polyfillClientPath]
          ++ [clientReferenceManifestAsset env.nodeRoot env.originalName]
      ∧ c.clientAssets =
          (getAppClientSharedChunkGroup env).assets
          ++ (clientReferencesChunksOf env processSsr).clientComponentClientChunks.flatten
          ++ entryClientChunksOf env processSsr
          ++ [{ path := env.polyfillPath, kind := AssetKind.raw }]
      ∧ c.middlewareAssets =
          (if runtime = NextRuntime.edge then
            clientReferenceManifestAsset env.nodeRoot env.originalName
              :: (clientReferencesChunksOf env processSsr).clientComponentSsrChunks.flatten
          else [])
      ∧ c.appServerReferenceModules = some env.serverReferenceModules
      ∧ c.clientDynamicImports = some env.clientDynamicImports := by
  unfold clientProcessing at h
  split at h
  · exact absurd h (by simp)
  · rename_i entryClientPaths hmap
    split at h
    · exact absurd h (by simp)
    · rename_i polyfillClientPath hpoly
      refine ⟨entryClientPaths, polyfillClientPath, hmap, hpoly, ?_⟩
      cases h
      simp

theorem nodeJsOutput_some_elim {env : AppEndpointEnv} {c : ClientProcessingResult}
    {serverAssets0 : List OutputAsset} {o : AppEndpointOutput}
    (h : nodeJsOutput env c serverAssets0 = some o) :
    ∃ rel,
      getPathTo (env.nodeRoot ++ "/server") env.rscChunkPath = some rel
      ∧ o = AppEndpointOutput.nodeJs (mkChunk env.rscChunkPath)
          (serverAssets0 ++ serverActionsAssetsOf env c
            ++ [mkChunk env.rscChunkPath]
            ++ [createAppPathsManifest env.nodeRoot env.originalName rel]
            ++ loadableManifestAssets env.nodeRoot env.originalName)
          c.clientAssets := by
  unfold nodeJsOutput at h
  split at h
  · exact absurd h (by simp)
  · rename_i rel hrel
    refine ⟨rel, hrel, ?_⟩
    cases h
    simp [serverActionsAssetsOf]

/-- The edge-function definition `edgeOutput` builds (lines 1096-1146). -/
def edgeFunctionDefinitionOf (env : AppEndpointEnv) (c : ClientProcessingResult) :
    EdgeFunctionDefinition :=
  { files := devBundlerProvidedFiles
      ++ getJsPathsFromRoot env.nodeRoot c.middlewareAssets
      ++ getJsPathsFromRoot env.nodeRoot (env.edgeFilesPaths.map mkChunk),
    wasm := wasmPathsToBindings
      (getWasmPathsFromRoot env.nodeRoot c.middlewareAssets
        ++ getWasmPathsFromRoot env.nodeRoot (allAssetsFromEntries (env.edgeFilesPaths.map mkChunk))),
    assets := pathsToBindings (getAllPathsFromRoot env.nodeRoot
      (allAssetsFromEntries (env.edgeFilesPaths.map mkChunk))),
    name := env.pathname,
    page := env.originalName,
    regions := env.config.preferredRegion,
    matchers := [{ regexp := some (getNamedMiddlewareRegex env.pathname),
                   originalSource := env.pathname }],
    envVars := env.edgeEnv }

/-- The middleware-manifest asset `edgeOutput` emits (lines 1147-1167). -/
def middlewareManifestAssetOf (env : AppEndpointEnv) (c : ClientProcessingResult) :
    OutputAsset :=
  { path := env.nodeRoot ++ "/server/app" ++ env.originalName ++ "/middleware-manifest.json",
    kind := AssetKind.middlewareManifest
      { sortedMiddleware := [env.originalName],
        functions := [(env.originalName, edgeFunctionDefinitionOf env c)] } }

theorem edgeOutput_eq (env : AppEndpointEnv) (c : ClientProcessingResult)
    (serverAssets0 : List OutputAsset) :
    edgeOutput env c serverAssets0 =
      AppEndpointOutput.edge (env.edgeFilesPaths.map mkChunk)
        (serverAssets0 ++ serverActionsAssetsOf env c
          ++ env.edgeFilesPaths.map mkChunk
          ++ [middlewareManifestAssetOf env c]
          ++ [createAppPathsManifest env.nodeRoot env.originalName "app-edge-has-no-entrypoint"]
          ++ loadableManifestAssets env.nodeRoot env.originalName)
        c.clientAssets := by
  unfold edgeOutput
  simp [serverActionsAssetsOf, middlewareManifestAssetOf, edgeFunctionDefinitionOf]

theorem output_some_elim {env : AppEndpointEnv} {o : AppEndpointOutput}
    (ho : output env = some o) :
    ∃ c,
      clientProcessingStep env = some c
      ∧ ((resolvedRuntime env = NextRuntime.edge
            ∧ o = edgeOutput env c
                (c.serverAssets ++ [fontManifestAsset env.nodeRoot env.originalName]))
         ∨ (resolvedRuntime env = NextRuntime.nodeJs
            ∧ nodeJsOutput env c
                (c.serverAssets ++ [fontManifestAsset env.nodeRoot env.originalName]) = some o)) := by
  unfold output at ho
  split at ho
  · exact absurd ho (by simp)
  · rename_i c hc
    refine ⟨c, hc, ?_⟩
    split at ho
    · rename_i hrt
      exact Or.inl ⟨hrt, (Option.some.inj ho).symm⟩
    · rename_i hrt
      exact Or.inr ⟨hrt, ho⟩

/-!
## Asset-kind lemmas

Every asset produced by a chunking context is a code chunk; these lemmas
record the kinds of each region of the produced asset lists, so that the
manifest assets of an output can be identified uniquely.
-/

theorem mem_map_mkChunk_kind {ps : List String} {a : OutputAsset}
    (h : a ∈ ps.map mkChunk) : a.kind = AssetKind.chunk := by
  obtain ⟨p, _, rfl⟩ := List.mem_map.mp h
  rfl

theorem ssrChunks_kind (env : AppEndpointEnv) (processSsr : Bool) :
    ∀ a ∈ (clientReferencesChunksOf env processSsr).clientComponentSsrChunks.flatten,
      a.kind = AssetKind.chunk := by
  intro a ha
  unfold clientReferencesChunksOf getAppClientReferencesChunks rawClientReferencesChunksOf at ha
  simp only at ha
  split at ha
  · obtain ⟨l, hl, hal⟩ := List.mem_flatten.mp ha
    obtain ⟨ps, _, rfl⟩ := List.mem_map.mp hl
    exact mem_map_mkChunk_kind hal
  · simp at ha

theorem serverActionsAssetsOf_kind (env : AppEndpointEnv) (c : ClientProcessingResult) :
    ∀ a ∈ serverActionsAssetsOf env c, a.kind = AssetKind.serverActionsManifest := by
  unfold serverActionsAssetsOf
  split
  · intro a ha
    simp at ha
    subst ha
    rfl
  · simp

/-- The kinds that can occur among the server assets accumulated by the
client-processing step: chunks and the three client manifests. -/
theorem clientProcessingStep_serverAssets_kinds {env : AppEndpointEnv}
    {c : ClientProcessingResult} (hc : clientProcessingStep env = some c) :
    ∀ a ∈ c.serverAssets,
      a.kind = AssetKind.chunk
      ∨ (∃ m, a.kind = AssetKind.appBuildManifest m)
      ∨ (∃ m, a.kind = AssetKind.buildManifest m)
      ∨ a.kind = AssetKind.clientReferenceManifest := by
  unfold clientProcessingStep at hc
  split at hc
  · obtain ⟨entryClientPaths, polyfillClientPath, _, _, hs, _⟩ :=
      clientProcessing_some_elim hc
    intro a ha
    rw [hs] at ha
    simp only [List.append_assoc, List.mem_append, List.mem_singleton] at ha
    rcases ha with ha | ha | ha | ha
    · exact Or.inl (ssrChunks_kind env _ a (List.mem_dedup.mp ha))
    · subst ha
      exact Or.inr (Or.inl ⟨_, rfl⟩)
    · subst ha
      exact Or.inr (Or.inr (Or.inl ⟨_, rfl⟩))
    · subst ha
      exact Or.inr (Or.inr (Or.inr rfl))
  · cases hc
    simp [emptyClientProcessingResult]

/-!
## Concrete environments

Small closed endpoint environments used to instantiate theorems with
hypotheses (witnesses) and to exhibit counterexamples.
-/

/-- A Route endpoint whose segment config selects the Edge runtime. -/
def envRouteEdge : AppEndpointEnv :=
  { ty := AppEndpointType.route,
    config := { runtime := some NextRuntime.edge, preferredRegion := none },
    originalName := "/r", pathname := "/r",
    nodeRoot := "/n", clientRelativePath := "/c",
    sharedChunkPaths := [], layoutSegmentClientChunkPaths := [],
    clientComponentClientChunkPaths := [], clientComponentSsrChunkPaths := [],
    polyfillPath := "/c/poly.js", serverReferenceModules := [],
    clientDynamicImports := [], entryDynamicImports := [],
    edgeFilesPaths := [], rscChunkPath := "/n/server/app/r.js",
    edgeEnv := [] }

/-- A Route endpoint whose segment config leaves the runtime unset. -/
def envRouteNode : AppEndpointEnv :=
  { envRouteEdge with config := { runtime := none, preferredRegion := none } }

/-- An Html Page endpoint on the Edge runtime with one shared chunk, one
layout-segment client chunk, one client-component chunk list that repeats
the shared chunk, and one client-component SSR chunk. -/
def envPageEdge : AppEndpointEnv :=
  { ty := AppEndpointType.page AppPageEndpointType.html,
    config := { runtime := some NextRuntime.edge, preferredRegion := some ["us"] },
    originalName := "/p", pathname := "/p",
    nodeRoot := "/n", clientRelativePath := "/c",
    sharedChunkPaths := ["/c/shared.js"],
    layoutSegmentClientChunkPaths := [["/c/l1.js"]],
    clientComponentClientChunkPaths := [["/c/cc1.js", "/c/shared.js"]],
    clientComponentSsrChunkPaths := [["/n/server/app/p/ssr1.js"]],
    polyfillPath := "/c/poly.js", serverReferenceModules := ["sr1"],
    clientDynamicImports := [], entryDynamicImports := [],
    edgeFilesPaths := ["/n/server/app/p/edge.js"],
    rscChunkPath := "/n/server/app/p.js",
    edgeEnv := [] }

/-!
## Claims
-/

/-- C3: For every Route endpoint with a non-empty chain of root layout
files ordered outermost to innermost, the merged Segment Config passed to
entry construction is the field-by-field fold in which each field takes
the value set by the innermost layout that explicitly sets it (so an
innermost runtime=Edge overrides an outermost runtime=NodeJs, and a field
set only by the outermost layout keeps that value). -/
theorem route_segment_config_innermost_wins (cfgs : List NextSegmentConfig)
    (h : cfgs ≠ []) :
    ∃ m, routeSegmentConfig cfgs = some m
      ∧ m.runtime = innermostSetting (fun c => c.runtime) cfgs
      ∧ m.preferredRegion = innermostSetting (fun c => c.preferredRegion) cfgs := by
  unfold routeSegmentConfig
  rw [if_neg (by simpa using h)]
  refine ⟨_, rfl, ?_, ?_⟩
  · rw [foldl_applyParentConfig_runtime]
    simp [NextSegmentConfig.defaultConfig, innermostSetting]
  · rw [foldl_applyParentConfig_preferredRegion]
    simp [NextSegmentConfig.defaultConfig, innermostSetting]

/-- The root-layout configs of the C3 witness: the outermost layout sets
runtime=NodeJs and region=["us"], the innermost sets only runtime=Edge. -/
def routeLayoutConfigsW : List NextSegmentConfig :=
  [{ runtime := some NextRuntime.nodeJs, preferredRegion := some ["us"] },
   { runtime := some NextRuntime.edge, preferredRegion := none }]

/-- Witness for C3 at a concrete two-layout chain: the merged runtime is
the innermost Edge and the region keeps the outermost ["us"]. -/
theorem route_segment_config_innermost_wins_witness :
    routeLayoutConfigsW ≠ []
    ∧ ∃ m, routeSegmentConfig routeLayoutConfigsW = some m
        ∧ m.runtime = innermostSetting (fun c => c.runtime) routeLayoutConfigsW
        ∧ m.preferredRegion = innermostSetting (fun c => c.preferredRegion) routeLayoutConfigsW :=
  ⟨by decide, route_segment_config_innermost_wins routeLayoutConfigsW (by decide)⟩

/-- C8 (amended): for each server context kind (RSC and Route) the NodeJs
and Edge module contexts are constructed with the same named-transition
key list — the client-reference transition name, "next-dynamic",
"next-ssr" and "next-shared" — of at most 5 entries; besides compile-time
info, module-options context, resolve-options context and the transition
targets, the variants also differ in the context layer tag. -/
theorem module_context_transition_symmetry :
    rscModuleContext.transitions.map Prod.fst = edgeRscModuleContext.transitions.map Prod.fst
    ∧ routeModuleContext.transitions.map Prod.fst
        = edgeRouteModuleContext.transitions.map Prod.fst
    ∧ rscModuleContext.transitions.map Prod.fst
        = [ecmascriptClientTransitionName, "next-dynamic", "next-ssr", "next-shared"]
    ∧ routeModuleContext.transitions.map Prod.fst
        = [ecmascriptClientTransitionName, "next-dynamic", "next-ssr", "next-shared"]
    ∧ rscModuleContext.transitions.length ≤ 5
    ∧ routeModuleContext.transitions.length ≤ 5 := by
  decide

/-- Counterexample for C8 as stated: the NodeJs and Edge variants do not
differ only in compile-time info, module-options context, resolve-options
context and transition targets.  The only other components of a module
context are the named-transition key list and the layer tag; the key lists
agree, but the layer tags differ ("app-rsc" vs "app-edge-rsc" and
"app-route" vs "app-edge-route"), so the claimed equality of everything
outside the four listed components fails. -/
theorem module_context_layer_differs :
    ¬ (rscModuleContext.layer = edgeRscModuleContext.layer
       ∧ routeModuleContext.layer = edgeRouteModuleContext.layer) := by
  decide

/-- C10: for every endpoint whose merged segment config leaves the runtime
field unset, `output` resolves the runtime to the default NextRuntime
value (NodeJs) and produces the NodeJs output variant. -/
theorem unset_runtime_produces_nodejs_output (env : AppEndpointEnv)
    (o : AppEndpointOutput) (h : env.config.runtime = none)
    (ho : output env = some o) :
    resolvedRuntime env = NextRuntime.nodeJs
    ∧ ∃ rsc sa ca, o = AppEndpointOutput.nodeJs rsc sa ca := by
  have hrt : resolvedRuntime env = NextRuntime.nodeJs := by
    simp [resolvedRuntime, h, NextRuntime.defaultRuntime]
  refine ⟨hrt, ?_⟩
  obtain ⟨c, _, hcase⟩ := output_some_elim ho
  rcases hcase with ⟨he, _⟩ | ⟨_, hno⟩
  · rw [hrt] at he
    exact absurd he (by decide)
  · obtain ⟨rel, _, hoeq⟩ := nodeJsOutput_some_elim hno
    exact ⟨_, _, _, hoeq⟩

/-- The output of the runtime-unset Route environment. -/
def oRouteNode : AppEndpointOutput :=
  (output envRouteNode).getD (AppEndpointOutput.edge [] [] [])

/-- Witness for C10 at the runtime-unset Route environment. -/
theorem unset_runtime_produces_nodejs_output_witness :
    envRouteNode.config.runtime = none
    ∧ (resolvedRuntime envRouteNode = NextRuntime.nodeJs
       ∧ ∃ rsc sa ca, oRouteNode = AppEndpointOutput.nodeJs rsc sa ca) :=
  ⟨by decide,
   unset_runtime_produces_nodejs_output envRouteNode oRouteNode (by decide) (by decide)⟩

/-- C5: for every endpoint, the emitted app-paths-manifest.json maps the
route's original name to the server-path-relative path of the real emitted
RSC entry chunk when the resolved runtime is NodeJs, and to the sentinel
"app-edge-has-no-entrypoint" when the resolved runtime is Edge. -/
theorem app_paths_manifest_entry (env : AppEndpointEnv) (o : AppEndpointOutput)
    (ho : output env = some o) :
    (resolvedRuntime env = NextRuntime.nodeJs →
      ∃ rel, getPathTo (env.nodeRoot ++ "/server") env.rscChunkPath = some rel
        ∧ mkChunk env.rscChunkPath ∈ o.serverAssetsOf
        ∧ createAppPathsManifest env.nodeRoot env.originalName rel ∈ o.serverAssetsOf
        ∧ ∀ a ∈ o.serverAssetsOf, ∀ m, a.kind = AssetKind.appPathsManifest m →
            m = { nodeServerAppPaths := { pages := [(env.originalName, rel)] } })
    ∧ (resolvedRuntime env = NextRuntime.edge →
      createAppPathsManifest env.nodeRoot env.originalName "app-edge-has-no-entrypoint"
          ∈ o.serverAssetsOf
        ∧ ∀ a ∈ o.serverAssetsOf, ∀ m, a.kind = AssetKind.appPathsManifest m →
            m = { nodeServerAppPaths :=
                    { pages := [(env.originalName, "app-edge-has-no-entrypoint")] } }) := by
  obtain ⟨c, hc, hcase⟩ := output_some_elim ho
  have hkinds := clientProcessingStep_serverAssets_kinds hc
  have hsa := serverActionsAssetsOf_kind env c
  rcases hcase with ⟨hrt, hoeq⟩ | ⟨hrt, hno⟩
  · refine ⟨fun hn => absurd (hrt.symm.trans hn) (by decide), fun _ => ?_⟩
    subst hoeq
    rw [edgeOutput_eq]
    constructor
    · simp [AppEndpointOutput.serverAssetsOf]
    · intro a ha m hk
      simp only [AppEndpointOutput.serverAssetsOf, List.append_assoc, List.mem_append,
        List.mem_singleton] at ha
      rcases ha with ha | ha | ha | ha | ha | ha
      · rcases hkinds a ha with h | ⟨m', h⟩ | ⟨m', h⟩ | h <;> rw [h] at hk <;> cases hk
      · subst ha; cases hk
      · rcases hsa a ha with h
        rw [h] at hk; cases hk
      · rw [mem_map_mkChunk_kind ha] at hk; cases hk
      · subst ha; cases hk
      · rcases ha with ha | ha
        · subst ha
          cases hk
          rfl
        · simp only [loadableManifestAssets, List.mem_singleton] at ha
          subst ha; cases hk
  · obtain ⟨rel, hrel, hoeq⟩ := nodeJsOutput_some_elim hno
    refine ⟨fun _ => ⟨rel, hrel, ?_, ?_, ?_⟩,
      fun he => absurd (hrt.symm.trans he) (by decide)⟩
    · subst hoeq
      simp [AppEndpointOutput.serverAssetsOf]
    · subst hoeq
      simp [AppEndpointOutput.serverAssetsOf]
    · subst hoeq
      intro a ha m hk
      simp only [AppEndpointOutput.serverAssetsOf, List.append_assoc, List.mem_append,
        List.mem_singleton] at ha
      rcases ha with ha | ha | ha | ha | ha
      · rcases hkinds a ha with h | ⟨m', h⟩ | ⟨m', h⟩ | h <;> rw [h] at hk <;> cases hk
      · subst ha; cases hk
      · rcases hsa a ha with h
        rw [h] at hk; cases hk
      · subst ha; cases hk
      · rcases ha with ha | ha
        · subst ha
          cases hk
          rfl
        · simp only [loadableManifestAssets, List.mem_singleton] at ha
          subst ha; cases hk

/-- An environment with every client-boundary input removed: the shared
chunk group, the client-reference chunk lists, the polyfill, the server
reference modules and the client dynamic imports. -/
def scrubClientInputs (env : AppEndpointEnv) : AppEndpointEnv :=
  { env with
    sharedChunkPaths := []
    layoutSegmentClientChunkPaths := []
    clientComponentClientChunkPaths := []
    clientComponentSsrChunkPaths := []
    polyfillPath := ""
    serverReferenceModules := []
    clientDynamicImports := [] }

/-- C9: for every Route or Metadata endpoint, `output` performs no
client-boundary processing: the produced output contains no
app-build-manifest, no build-manifest and no client-reference-manifest
asset, and the output is unchanged when every client-boundary input (the
shared chunk group, the client-reference chunk lists, the polyfill, the
server reference modules and the client dynamic imports) is scrubbed from
the environment. -/
theorem route_metadata_no_client_processing (env : AppEndpointEnv)
    (o : AppEndpointOutput)
    (hty : env.ty = AppEndpointType.route ∨ env.ty = AppEndpointType.metadata)
    (ho : output env = some o) :
    (∀ a ∈ o.outputAssets,
        (∀ m, a.kind ≠ AssetKind.appBuildManifest m)
        ∧ (∀ m, a.kind ≠ AssetKind.buildManifest m)
        ∧ a.kind ≠ AssetKind.clientReferenceManifest)
    ∧ output (scrubClientInputs env) = some o := by
  have hpc : processClientSsr env.ty = (false, false) := by
    rcases hty with h | h <;> rw [h] <;> rfl
  have hstep : clientProcessingStep env = some emptyClientProcessingResult := by
    unfold clientProcessingStep
    rw [hpc]
    rfl
  have hstep' : clientProcessingStep (scrubClientInputs env)
      = some emptyClientProcessingResult := by
    unfold clientProcessingStep
    rw [show (scrubClientInputs env).ty = env.ty from rfl, hpc]
    rfl
  have hsame : output (scrubClientInputs env) = output env := by
    unfold output
    rw [hstep, hstep']
    rfl
  refine ⟨?_, hsame.trans ho⟩
  obtain ⟨c, hc, hcase⟩ := output_some_elim ho
  rw [hstep] at hc
  cases hc
  rcases hcase with ⟨_, hoeq⟩ | ⟨_, hno⟩
  · subst hoeq
    rw [edgeOutput_eq]
    intro a ha
    simp only [AppEndpointOutput.outputAssets, AppEndpointOutput.serverAssetsOf,
      AppEndpointOutput.clientAssetsOf, emptyClientProcessingResult, serverActionsAssetsOf,
      List.append_assoc, List.mem_append, List.mem_singleton, List.append_nil,
      List.nil_append, List.not_mem_nil, or_false, false_or] at ha
    rcases ha with ha | ha | ha | ha | ha
    · subst ha
      exact ⟨fun m h => (nomatch h), fun m h => (nomatch h), fun h => (nomatch h)⟩
    · rw [mem_map_mkChunk_kind ha]
      exact ⟨fun m h => (nomatch h), fun m h => (nomatch h), fun h => (nomatch h)⟩
    · subst ha
      exact ⟨fun m h => (nomatch h), fun m h => (nomatch h), fun h => (nomatch h)⟩
    · subst ha
      exact ⟨fun m h => (nomatch h), fun m h => (nomatch h), fun h => (nomatch h)⟩
    · simp only [loadableManifestAssets, List.mem_singleton] at ha
      subst ha
      exact ⟨fun m h => (nomatch h), fun m h => (nomatch h), fun h => (nomatch h)⟩
  · obtain ⟨rel, _, hoeq⟩ := nodeJsOutput_some_elim hno
    subst hoeq
    intro a ha
    simp only [AppEndpointOutput.outputAssets, AppEndpointOutput.serverAssetsOf,
      AppEndpointOutput.clientAssetsOf, emptyClientProcessingResult, serverActionsAssetsOf,
      List.append_assoc, List.mem_append, List.mem_singleton, List.append_nil,
      List.nil_append, List.not_mem_nil, or_false, false_or] at ha
    rcases ha with ha | ha | ha | ha
    · subst ha
      exact ⟨fun m h => (nomatch h), fun m h => (nomatch h), fun h => (nomatch h)⟩
    · subst ha
      exact ⟨fun m h => (nomatch h), fun m h => (nomatch h), fun h => (nomatch h)⟩
    · subst ha
      exact ⟨fun m h => (nomatch h), fun m h => (nomatch h), fun h => (nomatch h)⟩
    · simp only [loadableManifestAssets, List.mem_singleton] at ha
      subst ha
      exact ⟨fun m h => (nomatch h), fun m h => (nomatch h), fun h => (nomatch h)⟩

/-- Every middleware asset is also one of the endpoint's server assets:
the client-reference manifest is pushed to both lists, and the SSR chunks
feed both the middleware list and (deduplicated) the server asset list
(`app.rs` lines 901-909 and 985-1002). -/
theorem clientProcessingStep_middleware_subset {env : AppEndpointEnv}
    {c : ClientProcessingResult} (hc : clientProcessingStep env = some c) :
    ∀ b ∈ c.middlewareAssets, b ∈ c.serverAssets := by
  unfold clientProcessingStep at hc
  split at hc
  · obtain ⟨entryClientPaths, polyfillClientPath, _, _, hs, _, hmw, _⟩ :=
      clientProcessing_some_elim hc
    intro b hb
    rw [hmw] at hb
    rw [hs]
    split at hb
    · rcases List.mem_cons.mp hb with hb | hb
      · subst hb
        simp
      · simp only [List.append_assoc, List.mem_append]
        exact Or.inl (List.mem_dedup.mpr hb)
    · simp at hb
  · cases hc
    simp [emptyClientProcessingResult]

/-- C2 (amended): for every Edge-runtime endpoint, every file path listed
in the emitted middleware manifest's edge-function `files` list — other
than the five dev-bundler-provided bootstrap files, which are created
externally by `setup-dev-bundler.ts` — corresponds to an asset present in
the endpoint's emitted server asset set (some server asset's
node-root-relative path equals it). -/
theorem edge_manifest_files_covered (env : AppEndpointEnv) (o : AppEndpointOutput)
    (hrt : resolvedRuntime env = NextRuntime.edge)
    (ho : output env = some o) :
    ∀ a ∈ o.serverAssetsOf, ∀ m, a.kind = AssetKind.middlewareManifest m →
      ∀ nd ∈ m.functions, ∀ f ∈ nd.2.files, f ∉ devBundlerProvidedFiles →
        ∃ b ∈ o.serverAssetsOf, getPathTo env.nodeRoot b.path = some f := by
  obtain ⟨c, hc, hcase⟩ := output_some_elim ho
  have hkinds := clientProcessingStep_serverAssets_kinds hc
  have hsakind := serverActionsAssetsOf_kind env c
  have hmwsub := clientProcessingStep_middleware_subset hc
  rcases hcase with ⟨_, hoeq⟩ | ⟨hn, _⟩
  swap
  · exact absurd (hn.symm.trans hrt) (by decide)
  subst hoeq
  rw [edgeOutput_eq]
  intro a ha m hk
  simp only [AppEndpointOutput.serverAssetsOf, List.append_assoc, List.mem_append,
    List.mem_singleton] at ha
  rcases ha with ha | ha | ha | ha | ha | ha
  · rcases hkinds a ha with h | ⟨m', h⟩ | ⟨m', h⟩ | h <;> rw [h] at hk <;> cases hk
  · subst ha; cases hk
  · rw [hsakind a ha] at hk; cases hk
  · rw [mem_map_mkChunk_kind ha] at hk; cases hk
  · -- the middleware manifest asset itself
    subst ha
    cases hk
    intro nd hnd f hf hfnot
    simp only [middlewareManifestAssetOf] at hnd
    rcases List.mem_singleton.mp hnd with rfl
    simp only [edgeFunctionDefinitionOf, List.append_assoc, List.mem_append] at hf
    rcases hf with hf | hf | hf
    · exact absurd hf hfnot
    · obtain ⟨b, hb, hbf⟩ := List.mem_filterMap.mp hf
      refine ⟨b, ?_, ?_⟩
      · simp only [AppEndpointOutput.serverAssetsOf, List.append_assoc, List.mem_append]
        exact Or.inl (hmwsub b hb)
      · by_cases hjs : pathEndsWith b.path ".js" = true
        · rwa [if_pos hjs] at hbf
        · rw [if_neg hjs] at hbf; cases hbf
    · obtain ⟨b, hb, hbf⟩ := List.mem_filterMap.mp hf
      refine ⟨b, ?_, ?_⟩
      · simp only [AppEndpointOutput.serverAssetsOf, List.append_assoc, List.mem_append]
        exact Or.inr (Or.inr (Or.inr (Or.inl hb)))
      · by_cases hjs : pathEndsWith b.path ".js" = true
        · rwa [if_pos hjs] at hbf
        · rw [if_neg hjs] at hbf; cases hbf
  · rcases ha with ha | ha
    · subst ha; cases hk
    · simp only [loadableManifestAssets, List.mem_singleton] at ha
      subst ha; cases hk

/-- The output of the Edge Route environment. -/
def oRouteEdge : AppEndpointOutput :=
  (output envRouteEdge).getD (AppEndpointOutput.nodeJs (mkChunk "") [] [])

/-- Counterexample for C2 as stated: at the concrete Edge Route
environment, the emitted middleware manifest's edge-function `files` list
contains a dev-bundler-provided bootstrap file
("server/server-reference-manifest.js"), yet no server asset of the
endpoint's output lies at that node-root-relative path — so not every
listed file corresponds to an emitted server asset. -/
theorem edge_manifest_files_counterexample :
    output envRouteEdge = some oRouteEdge
    ∧ middlewareManifestAssetOf envRouteEdge emptyClientProcessingResult
        ∈ oRouteEdge.serverAssetsOf
    ∧ (middlewareManifestAssetOf envRouteEdge emptyClientProcessingResult).kind
        = AssetKind.middlewareManifest
            { sortedMiddleware := ["/r"],
              functions := [("/r", edgeFunctionDefinitionOf envRouteEdge
                emptyClientProcessingResult)] }
    ∧ "server/server-reference-manifest.js"
        ∈ (edgeFunctionDefinitionOf envRouteEdge emptyClientProcessingResult).files
    ∧ ∀ b ∈ oRouteEdge.serverAssetsOf,
        getPathTo envRouteEdge.nodeRoot b.path ≠ some "server/server-reference-manifest.js" := by
  decide

/-- C1: for every Edge-runtime Page endpoint (an endpoint that processes
the client), the emitted middleware manifest's edge-function definition
lists, in its `files`, the node-root-relative path of every
client-component SSR chunk that is a JS file under the node root: the SSR
chunks are inlined into the preload list rather than deferred to runtime
chunk loading. -/
theorem edge_manifest_inlines_ssr_chunks (env : AppEndpointEnv)
    (pageTy : AppPageEndpointType) (o : AppEndpointOutput)
    (hty : env.ty = AppEndpointType.page pageTy)
    (hrt : resolvedRuntime env = NextRuntime.edge)
    (ho : output env = some o) :
    ∃ c, clientProcessingStep env = some c
      ∧ middlewareManifestAssetOf env c ∈ o.serverAssetsOf
      ∧ ∀ chunks ∈ (clientReferencesChunksOf env
            (processClientSsr env.ty).2).clientComponentSsrChunks,
          ∀ ch ∈ chunks, pathEndsWith ch.path ".js" = true →
            ∀ rel, getPathTo env.nodeRoot ch.path = some rel →
              rel ∈ (edgeFunctionDefinitionOf env c).files := by
  obtain ⟨c, hc, hcase⟩ := output_some_elim ho
  rcases hcase with ⟨_, hoeq⟩ | ⟨hn, _⟩
  swap
  · exact absurd (hn.symm.trans hrt) (by decide)
  subst hoeq
  refine ⟨c, hc, ?_, ?_⟩
  · rw [edgeOutput_eq]
    simp [AppEndpointOutput.serverAssetsOf]
  · intro chunks hchunks ch hch hjs rel hrel
    have hmw : ch ∈ c.middlewareAssets := by
      have hpc : (processClientSsr env.ty).1 = true := by rw [hty]; rfl
      unfold clientProcessingStep at hc
      rw [if_pos hpc] at hc
      obtain ⟨entryClientPaths, polyfillClientPath, _, _, _, _, hmwesh, _⟩ :=
        clientProcessing_some_elim hc
      rw [hmwesh, if_pos hrt]
      exact List.mem_cons_of_mem _ (List.mem_flatten.mpr ⟨chunks, hchunks, hch⟩)
    simp only [edgeFunctionDefinitionOf, List.append_assoc, List.mem_append]
    refine Or.inr (Or.inl ?_)
    exact List.mem_filterMap.mpr ⟨ch, hmw, by rw [if_pos hjs, hrel]⟩

/-- C4: for every Page endpoint, the per-reference client chunk groups are
computed against the shared client chunk group's availability baseline,
and no output asset already present in the shared chunk group's asset set
reappears in the endpoint's per-reference client chunk lists. -/
theorem client_reference_chunks_respect_baseline (env : AppEndpointEnv)
    (pageTy : AppPageEndpointType)
    (hty : env.ty = AppEndpointType.page pageTy) :
    ∀ chunks ∈ (clientReferencesChunksOf env
          (processClientSsr env.ty).2).layoutSegmentClientChunks
        ++ (clientReferencesChunksOf env
          (processClientSsr env.ty).2).clientComponentClientChunks,
      ∀ a ∈ chunks, a ∉ (getAppClientSharedChunkGroup env).assets := by
  intro chunks hchunks a ha hshared
  unfold clientReferencesChunksOf getAppClientReferencesChunks at hchunks
  simp only [List.mem_append, List.mem_map] at hchunks
  have havail : a ∈ (getAppClientSharedChunkGroup env).availabilityInfo := hshared
  rcases hchunks with ⟨l, _, rfl⟩ | ⟨l, _, rfl⟩ <;>
  · have := List.of_mem_filter ha
    simp only [Bool.not_eq_eq_eq_not, Bool.not_true, decide_eq_false_iff_not] at this
    exact this havail

/-- Re-emitting the same asset set changes nothing: every emitted path is
already mapped to its asset, and untouched files were kept as they
were. -/
theorem emitAllOutputAssets_idem (fs : EmittedFiles) (assets : List OutputAsset) :
    emitAllOutputAssets (emitAllOutputAssets fs assets) assets
      = emitAllOutputAssets fs assets := by
  unfold emitAllOutputAssets
  rw [List.filter_append]
  have h1 : (assets.map fun a => (a.path, a)).filter
      (fun e => !(assets.any fun a => decide (a.path = e.1))) = [] := by
    rw [List.filter_eq_nil]
    intro e he
    obtain ⟨a, ha, rfl⟩ := List.mem_map.mp he
    simp only [Bool.not_eq_true', Bool.not_eq_false, List.any_eq_true]
    exact ⟨a, ha, by simp⟩
  have h2 : ∀ l : EmittedFiles, ∀ p : String × OutputAsset → Bool,
      (l.filter p).filter p = l.filter p := by
    intro l p
    rw [List.filter_filter]
    exact List.filter_congr fun a _ => Bool.and_self (p a)
  rw [h1, h2]
  simp

/-- C6: calling `write_to_disk` twice with no intervening input change
emits no additional files on the second call (the file system is
unchanged) and the second call returns a WrittenEndpoint equal to the
first call's result. -/
theorem write_to_disk_idempotent (env : AppEndpointEnv)
    (fs fs₁ fs₂ : EmittedFiles) (w₁ w₂ : WrittenEndpoint)
    (h1 : writeToDisk env fs = some (fs₁, w₁))
    (h2 : writeToDisk env fs₁ = some (fs₂, w₂)) :
    fs₂ = fs₁ ∧ w₂ = w₁ := by
  unfold writeToDisk at h1 h2
  cases hov : output env with
  | none =>
    rw [hov] at h1
    cases h1
  | some o =>
    rw [hov] at h1 h2
    cases o with
    | nodeJs rsc sa ca =>
      simp only [] at h1 h2
      cases hp : getPathTo env.nodeRoot rsc.path with
      | none =>
        rw [hp] at h1
        cases h1
      | some entry =>
        rw [hp] at h1 h2
        cases h1
        cases h2
        exact ⟨emitAllOutputAssets_idem fs _, rfl⟩
    | edge f sa ca =>
      simp only [] at h1 h2
      cases h1
      cases h2
      exact ⟨emitAllOutputAssets_idem fs _, rfl⟩

/-- C7: the WrittenEndpoint returned by `write_to_disk` carries a server
entry path exactly when the computed output is the NodeJs variant, in
which case the entry path is the node-root-relative path of the RSC entry
chunk; the Edge variant carries only the server- and client-relative path
lists. -/
theorem written_endpoint_entry_path (env : AppEndpointEnv)
    (fs fs' : EmittedFiles) (w : WrittenEndpoint)
    (h : writeToDisk env fs = some (fs', w)) :
    ((∃ entry serverPaths clientPaths,
        w = WrittenEndpoint.nodeJs entry serverPaths clientPaths)
      ↔ (∃ rsc sa ca, output env = some (AppEndpointOutput.nodeJs rsc sa ca)))
    ∧ (∀ rsc sa ca, output env = some (AppEndpointOutput.nodeJs rsc sa ca) →
        ∃ entry, getPathTo env.nodeRoot rsc.path = some entry
          ∧ w = WrittenEndpoint.nodeJs entry
              (allServerPaths (AppEndpointOutput.nodeJs rsc sa ca).outputAssets env.nodeRoot)
              (allPathsInRoot (AppEndpointOutput.nodeJs rsc sa ca).outputAssets
                env.clientRelativePath))
    ∧ (∀ files sa ca, output env = some (AppEndpointOutput.edge files sa ca) →
        w = WrittenEndpoint.edge
          (allServerPaths (AppEndpointOutput.edge files sa ca).outputAssets env.nodeRoot)
          (allPathsInRoot (AppEndpointOutput.edge files sa ca).outputAssets
            env.clientRelativePath)) := by
  unfold writeToDisk at h
  cases hov : output env with
  | none =>
    rw [hov] at h
    cases h
  | some o =>
    rw [hov] at h
    cases o with
    | nodeJs rsc sa ca =>
      simp only [] at h
      cases hp : getPathTo env.nodeRoot rsc.path with
      | none =>
        rw [hp] at h
        cases h
      | some entry =>
        rw [hp] at h
        cases h
        refine ⟨⟨fun _ => ⟨rsc, sa, ca, rfl⟩, fun _ => ⟨entry, _, _, rfl⟩⟩, ?_, ?_⟩
        · intro rsc' sa' ca' h'
          cases h'
          exact ⟨entry, hp, rfl⟩
        · intro files' sa' ca' h'
          cases h'
    | edge f sa ca =>
      simp only [] at h
      cases h
      refine ⟨⟨fun hw => ?_, fun hout => ?_⟩, ?_, ?_⟩
      · obtain ⟨entry, sp, cp, hw⟩ := hw
        cases hw
      · obtain ⟨rsc', sa', ca', hout⟩ := hout
        cases hout
      · intro rsc' sa' ca' h'
        cases h'
      · intro files' sa' ca' h'
        cases h'
        rfl

/-!
## Witnesses
-/

/-- The output of the Edge Page environment. -/
def oPageEdge : AppEndpointOutput :=
  (output envPageEdge).getD (AppEndpointOutput.nodeJs (mkChunk "") [] [])

/-- Witness for C1 at the Edge Page environment: its single
client-component SSR chunk "/n/server/app/p/ssr1.js" is inlined into the
edge-function file list. -/
theorem edge_manifest_inlines_ssr_chunks_witness :
    envPageEdge.ty = AppEndpointType.page AppPageEndpointType.html
    ∧ resolvedRuntime envPageEdge = NextRuntime.edge
    ∧ output envPageEdge = some oPageEdge
    ∧ ∃ c, clientProcessingStep envPageEdge = some c
        ∧ middlewareManifestAssetOf envPageEdge c ∈ oPageEdge.serverAssetsOf
        ∧ ∀ chunks ∈ (clientReferencesChunksOf envPageEdge
              (processClientSsr envPageEdge.ty).2).clientComponentSsrChunks,
            ∀ ch ∈ chunks, pathEndsWith ch.path ".js" = true →
              ∀ rel, getPathTo envPageEdge.nodeRoot ch.path = some rel →
                rel ∈ (edgeFunctionDefinitionOf envPageEdge c).files :=
  ⟨by decide, by decide, by decide,
   edge_manifest_inlines_ssr_chunks envPageEdge AppPageEndpointType.html oPageEdge
     (by decide) (by decide) (by decide)⟩

/-- Witness for C2 (amended) at the Edge Page environment. -/
theorem edge_manifest_files_covered_witness :
    resolvedRuntime envPageEdge = NextRuntime.edge
    ∧ output envPageEdge = some oPageEdge
    ∧ ∀ a ∈ oPageEdge.serverAssetsOf, ∀ m, a.kind = AssetKind.middlewareManifest m →
        ∀ nd ∈ m.functions, ∀ f ∈ nd.2.files, f ∉ devBundlerProvidedFiles →
          ∃ b ∈ oPageEdge.serverAssetsOf,
            getPathTo envPageEdge.nodeRoot b.path = some f :=
  ⟨by decide, by decide,
   edge_manifest_files_covered envPageEdge oPageEdge (by decide) (by decide)⟩

/-- Witness for C4 at the Edge Page environment: the shared chunk
"/c/shared.js" does not reappear in any per-reference client chunk
list. -/
theorem client_reference_chunks_respect_baseline_witness :
    envPageEdge.ty = AppEndpointType.page AppPageEndpointType.html
    ∧ ∀ chunks ∈ (clientReferencesChunksOf envPageEdge
          (processClientSsr envPageEdge.ty).2).layoutSegmentClientChunks
        ++ (clientReferencesChunksOf envPageEdge
          (processClientSsr envPageEdge.ty).2).clientComponentClientChunks,
        ∀ a ∈ chunks, a ∉ (getAppClientSharedChunkGroup envPageEdge).assets :=
  ⟨by decide,
   client_reference_chunks_respect_baseline envPageEdge AppPageEndpointType.html (by decide)⟩

/-- Witness for C5 at the runtime-unset Route environment: the app-paths
manifest maps "/r" to the server-path-relative RSC chunk path
"app/r.js". -/
theorem app_paths_manifest_entry_witness :
    output envRouteNode = some oRouteNode
    ∧ ((resolvedRuntime envRouteNode = NextRuntime.nodeJs →
        ∃ rel, getPathTo (envRouteNode.nodeRoot ++ "/server") envRouteNode.rscChunkPath
              = some rel
          ∧ mkChunk envRouteNode.rscChunkPath ∈ oRouteNode.serverAssetsOf
          ∧ createAppPathsManifest envRouteNode.nodeRoot envRouteNode.originalName rel
              ∈ oRouteNode.serverAssetsOf
          ∧ ∀ a ∈ oRouteNode.serverAssetsOf, ∀ m, a.kind = AssetKind.appPathsManifest m →
              m = { nodeServerAppPaths :=
                      { pages := [(envRouteNode.originalName, rel)] } })
      ∧ (resolvedRuntime envRouteNode = NextRuntime.edge →
        createAppPathsManifest envRouteNode.nodeRoot envRouteNode.originalName
            "app-edge-has-no-entrypoint" ∈ oRouteNode.serverAssetsOf
          ∧ ∀ a ∈ oRouteNode.serverAssetsOf, ∀ m, a.kind = AssetKind.appPathsManifest m →
              m = { nodeServerAppPaths :=
                      { pages := [(envRouteNode.originalName,
                          "app-edge-has-no-entrypoint")] } })) :=
  ⟨by decide, app_paths_manifest_entry envRouteNode oRouteNode (by decide)⟩

/-- The result of the first `writeToDisk` call on the runtime-unset Route
environment over the empty file system. -/
def writeRouteNode1 : EmittedFiles × WrittenEndpoint :=
  (writeToDisk envRouteNode []).getD ([], WrittenEndpoint.edge [] [])

/-- The result of the second `writeToDisk` call, over the file system the
first call produced. -/
def writeRouteNode2 : EmittedFiles × WrittenEndpoint :=
  (writeToDisk envRouteNode writeRouteNode1.1).getD ([], WrittenEndpoint.edge [] [])

/-- Witness for C6: both calls succeed, the second call leaves the file
system unchanged and returns an equal WrittenEndpoint. -/
theorem write_to_disk_idempotent_witness :
    writeToDisk envRouteNode [] = some (writeRouteNode1.1, writeRouteNode1.2)
    ∧ writeToDisk envRouteNode writeRouteNode1.1
        = some (writeRouteNode2.1, writeRouteNode2.2)
    ∧ (writeRouteNode2.1 = writeRouteNode1.1 ∧ writeRouteNode2.2 = writeRouteNode1.2) :=
  ⟨by decide, by decide,
   write_to_disk_idempotent envRouteNode [] writeRouteNode1.1 writeRouteNode2.1
     writeRouteNode1.2 writeRouteNode2.2 (by decide) (by decide)⟩

/-- Witness for C7 at the runtime-unset Route environment (a NodeJs
output). -/
theorem written_endpoint_entry_path_witness :
    writeToDisk envRouteNode [] = some (writeRouteNode1.1, writeRouteNode1.2)
    ∧ (((∃ entry serverPaths clientPaths,
          writeRouteNode1.2 = WrittenEndpoint.nodeJs entry serverPaths clientPaths)
        ↔ (∃ rsc sa ca, output envRouteNode = some (AppEndpointOutput.nodeJs rsc sa ca)))
      ∧ (∀ rsc sa ca, output envRouteNode = some (AppEndpointOutput.nodeJs rsc sa ca) →
          ∃ entry, getPathTo envRouteNode.nodeRoot rsc.path = some entry
            ∧ writeRouteNode1.2 = WrittenEndpoint.nodeJs entry
                (allServerPaths (AppEndpointOutput.nodeJs rsc sa ca).outputAssets
                  envRouteNode.nodeRoot)
                (allPathsInRoot (AppEndpointOutput.nodeJs rsc sa ca).outputAssets
                  envRouteNode.clientRelativePath))
      ∧ (∀ files sa ca, output envRouteNode = some (AppEndpointOutput.edge files sa ca) →
          writeRouteNode1.2 = WrittenEndpoint.edge
            (allServerPaths (AppEndpointOutput.edge files sa ca).outputAssets
              envRouteNode.nodeRoot)
            (allPathsInRoot (AppEndpointOutput.edge files sa ca).outputAssets
              envRouteNode.clientRelativePath))) :=
  ⟨by decide,
   written_endpoint_entry_path envRouteNode [] writeRouteNode1.1 writeRouteNode1.2
     (by decide)⟩

/-- Witness for C9 at the Edge Route environment: no client manifests in
the output, and scrubbing the client-boundary inputs leaves the output
unchanged. -/
theorem route_metadata_no_client_processing_witness :
    (envRouteEdge.ty = AppEndpointType.route ∨ envRouteEdge.ty = AppEndpointType.metadata)
    ∧ output envRouteEdge = some oRouteEdge
    ∧ ((∀ a ∈ oRouteEdge.outputAssets,
          (∀ m, a.kind ≠ AssetKind.appBuildManifest m)
          ∧ (∀ m, a.kind ≠ AssetKind.buildManifest m)
          ∧ a.kind ≠ AssetKind.clientReferenceManifest)
        ∧ output (scrubClientInputs envRouteEdge) = some oRouteEdge) :=
  ⟨Or.inl (by decide), by decide,
   route_metadata_no_client_processing envRouteEdge oRouteEdge (Or.inl (by decide))
     (by decide)⟩

end NextApi
